import Mathlib

/-!
Verification of the chickpea tile-set compiler (`src/chickpea_tiles/src/lib.rs`).

The Rust code is shallowly embedded below.  Images (`image::DynamicImage`)
are modelled as a width, a height and a pixel function `Nat → Nat → Nat`
(one `Nat` encodes one RGBA pixel value; `DynamicImage::new_rgba8` yields
the all-zero image).  `GenericImage::copy_from` checks that the source
fits at the destination offset before writing any pixel and reports the
check as a boolean, exactly as the 2016 `image` crate does.
`HashMap<String, V>` is modelled as an association list whose `insert`
replaces any earlier binding of the same key, matching
`std::collections::HashMap::insert`; the unspecified iteration order used
when the map is serialized is modelled explicitly as a key-order argument
of the serializer.  `u32` values are modelled as `Nat`: every quantity
reaching the arithmetic below is bounded in any run that does not abort
on `u32` overflow (2016 rustc panics on debug overflow before any of the
behaviour verified here could differ).  The source computes
`(total_tiles as f64).sqrt().floor() as u32`; for every `u32` input the
correctly rounded `f64` square root floors to the integer square root
(the error of the rounded root is below one ulp, which is far smaller
than the distance from `sqrt n` to the next integer for `n < 2^32`), so
it is embedded as the executable integer square root `isqrt`.
-/

namespace Chickpea

/-- One RGBA pixel, encoded as a single `Nat`. -/
abbrev Pixel := Nat

/-- Model of `image::DynamicImage`: dimensions plus a total pixel function.
Pixels outside the `width × height` rectangle are irrelevant junk; the
claims only ever read in-bounds pixels. -/
structure Image where
  width : Nat
  height : Nat
  pix : Nat → Nat → Pixel

/-- `DynamicImage::new_rgba8(w, h)`: an all-zero (transparent black) image. -/
def Image.new (w h : Nat) : Image :=
  { width := w, height := h, pix := fun _ _ => 0 }

/-- `GenericImage::sub_image(x, y, w, h)`: a `w × h` view whose pixel `(i, j)`
is the underlying pixel `(x + i, y + j)`. -/
def subImage (src : Image) (x y w h : Nat) : Image :=
  { width := w, height := h, pix := fun i j => src.pix (x + i) (y + j) }

/-- `GenericImage::copy_from(other, x, y) -> bool`: bounds-check first, then
copy every pixel of `other` to offset `(x, y)`; on a failed check nothing
is written and `false` is returned. -/
def copyFrom (dst : Image) (other : Image) (x y : Nat) : Bool × Image :=
  if other.width + x ≤ dst.width ∧ other.height + y ≤ dst.height then
    (true,
      { dst with
        pix := fun px py =>
          if x ≤ px ∧ px < x + other.width ∧ y ≤ py ∧ py < y + other.height then
            other.pix (px - x) (py - y)
          else dst.pix px py })
  else (false, dst)

/-- `struct TileSource`. -/
structure TileSource where
  identifier : String
  image_path : String
deriving DecidableEq

/-- `pub const TILES_IN_FLOOR_SET: u32 = 16`. -/
def TILES_IN_FLOOR_SET : Nat := 16

/-- `struct FloorSetSource`. -/
structure FloorSetSource where
  identifier : String
  location : Nat × Nat
deriving DecidableEq

/-- `struct FloorSource`. -/
structure FloorSource where
  tile_source : String
  floor_sets : List FloorSetSource
deriving DecidableEq

/-- `FloorSource::num_tiles`. -/
def FloorSource.num_tiles (f : FloorSource) : Nat :=
  f.floor_sets.length * TILES_IN_FLOOR_SET

/-- `pub const TILES_IN_WALL_SET: u32 = 13`. -/
def TILES_IN_WALL_SET : Nat := 13

/-- `struct WallSetSource`. -/
structure WallSetSource where
  identifier : String
  location : Nat × Nat
deriving DecidableEq

/-- `struct WallSource`. -/
structure WallSource where
  tile_source : String
  wall_sets : List WallSetSource
deriving DecidableEq

/-- `WallSource::num_tiles`. -/
def WallSource.num_tiles (w : WallSource) : Nat :=
  w.wall_sets.length * TILES_IN_WALL_SET

/-- `struct TileSetModule`. -/
structure TileSetModule where
  identifier : String
  tile_size : Nat × Nat
  out_tile_set_path : String
  out_image_path : String
  tile_sources : List TileSource
  floor_sources : List FloorSource
  wall_sources : List WallSource
deriving DecidableEq

/-- `TileSetModule::num_tiles`: the source sums `num_tiles` of every floor
source and every wall source with a running accumulator. -/
def TileSetModule.num_tiles (m : TileSetModule) : Nat :=
  (m.floor_sources.map FloorSource.num_tiles).sum
    + (m.wall_sources.map WallSource.num_tiles).sum

/-- `struct CompiledFloorSet` (`[(u32, u32); k]` arrays become lists that the
compiler always builds with the declared lengths 9, 3, 3). -/
structure CompiledFloorSet where
  numpad : List (Nat × Nat)
  top_bottom : List (Nat × Nat)
  left_right : List (Nat × Nat)
  closed_center : Nat × Nat
deriving DecidableEq

/-- `struct CompiledWallSet`. -/
structure CompiledWallSet where
  circle : List (Nat × Nat)
  center_point : Nat × Nat
  wall : Nat × Nat
  cross : List (Nat × Nat)
deriving DecidableEq

/-- `struct CompiledTileSet` (the two `HashMap`s are association lists, see
the header comment). -/
structure CompiledTileSet where
  identifier : String
  tile_size : Nat × Nat
  image_path : String
  floor_sets : List (String × CompiledFloorSet)
  wall_sets : List (String × CompiledWallSet)
deriving DecidableEq

/-- `enum Error` (the static messages of `Error::Msg` are kept; the payloads
of the remaining variants are irrelevant to the claims). -/
inductive Error where
  | Msg : String → Error
  | ImageError : Error
  | JsonError : Error
  | IOErr : Error
deriving DecidableEq

/-- `HashMap::insert`: bind `k` to `v`, replacing any earlier binding of `k`. -/
def hmInsert {α : Type} (m : List (String × α)) (k : String) (v : α) :
    List (String × α) :=
  (k, v) :: m.filter (fun p => p.1 ≠ k)

/-- `HashMap::get`-style lookup in the association-list model. -/
def hmLookup {α : Type} (m : List (String × α)) (k : String) : Option α :=
  match m with
  | [] => none
  | (k', v) :: rest => if k' = k then some v else hmLookup rest k

/-- `struct TileSetCursor`. -/
structure TileSetCursor where
  img : Image
  loc : Nat × Nat
  tile_size : Nat × Nat

/-- `TileSetCursor::new`. -/
def TileSetCursor.new (dimensions tile_size : Nat × Nat) : TileSetCursor :=
  { img := Image.new dimensions.1 dimensions.2
    loc := (0, 0)
    tile_size := tile_size }

/-- The cursor-advance step of `TileSetCursor::add_tile`: move one tile width
right; if the next tile would exceed the atlas width, wrap to the start of
the next tile row. -/
def cursorAdvance (width : Nat) (ts : Nat × Nat) (loc : Nat × Nat) : Nat × Nat :=
  let x := loc.1 + ts.1
  if x + ts.1 > width then (0, loc.2 + ts.2) else (x, loc.2)

/-- `TileSetCursor::add_tile`: copy the `tile_size` rectangle of `src` at
tile coordinate `tc` to the current cursor position, advance the cursor,
and return the ADVANCED cursor position (the source returns
`(self.loc.0, self.loc.1)` after the two `self.loc` updates).  The failure
message abbreviates the static string of the source. -/
def TileSetCursor.add_tile (c : TileSetCursor) (src : Image) (tc : Nat × Nat) :
    Except Error ((Nat × Nat) × TileSetCursor) :=
  let width := c.img.width
  let x := tc.1 * c.tile_size.1
  let y := tc.2 * c.tile_size.2
  let sub := subImage src x y c.tile_size.1 c.tile_size.2
  let res := copyFrom c.img sub c.loc.1 c.loc.2
  let loc' := cursorAdvance width c.tile_size c.loc
  match res.1 with
  | true => .ok ((loc'.1, loc'.2), { c with img := res.2, loc := loc' })
  | false => .error (.Msg "couldnt fit tile into image")

/-- The sixteen `add_tile` source-tile coordinates of one floor set, in the
exact call order of `compile_floor_sets` (n7 n8 n9 tb_top closed n4 n5 n6
tb_mid lr_left lr_mid lr_right n1 n2 n3 tb_bot). -/
def floorOffsets (x y : Nat) : List (Nat × Nat) :=
  [(x, y), (x + 1, y), (x + 2, y), (x + 3, y), (x + 5, y),
   (x, y + 1), (x + 1, y + 1), (x + 2, y + 1), (x + 3, y + 1),
   (x + 4, y + 1), (x + 5, y + 1), (x + 6, y + 1),
   (x, y + 2), (x + 1, y + 2), (x + 2, y + 2), (x + 3, y + 2)]

/-- The thirteen `add_tile` source-tile coordinates of one wall set, in the
exact call order of `compile_wall_sets` (c3 c4 c5 w x1 c2 cp x2 x3 x4 x5
c1 c6). -/
def wallOffsets (x y : Nat) : List (Nat × Nat) :=
  [(x, y), (x + 1, y), (x + 2, y), (x + 3, y), (x + 4, y),
   (x, y + 1), (x + 1, y + 1), (x + 3, y + 1), (x + 4, y + 1), (x + 5, y + 1),
   (x, y + 2), (x + 2, y + 2), (x + 4, y + 2)]

/-- Assemble a `CompiledFloorSet` from the sixteen returned coordinates of
one floor set, in the call order of `floorOffsets`
(`numpad = [n1 ... n9]`, `top_bottom = [tb_top, tb_mid, tb_bot]`,
`left_right = [lr_left, lr_mid, lr_right]`). -/
def buildFloorSet (cs : List (Nat × Nat)) : CompiledFloorSet :=
  let g := fun i => cs.getD i (0, 0)
  { numpad := [g 12, g 13, g 14, g 5, g 6, g 7, g 0, g 1, g 2]
    top_bottom := [g 3, g 8, g 15]
    left_right := [g 9, g 10, g 11]
    closed_center := g 4 }

/-- Assemble a `CompiledWallSet` from the thirteen returned coordinates of
one wall set, in the call order of `wallOffsets`
(`circle = [c1 ... c6]`, `cross = [x1 ... x5]`). -/
def buildWallSet (cs : List (Nat × Nat)) : CompiledWallSet :=
  let g := fun i => cs.getD i (0, 0)
  { circle := [g 10, g 5, g 0, g 1, g 2, g 11]
    center_point := g 6
    wall := g 3
    cross := [g 4, g 7, g 8, g 9, g 12] }

/-- Run a sequence of `add_tile` calls (the straight-line `try!` chains of
`compile_floor_sets` / `compile_wall_sets`), collecting the returned
coordinates in call order; the first failure aborts. -/
def addTiles (src : Image) : List (Nat × Nat) → TileSetCursor →
    Except Error (List (Nat × Nat) × TileSetCursor)
  | [], c => .ok ([], c)
  | tc :: rest, c =>
    match c.add_tile src tc with
    | .error e => .error e
    | .ok (p, c') =>
      match addTiles src rest c' with
      | .error e => .error e
      | .ok (ps, c'') => .ok (p :: ps, c'')

/-- The inner loop of `compile_floor_sets`: compile every floor set of one
source sheet and insert its `CompiledFloorSet` under its identifier. -/
def compileFloorSetList (src : Image) :
    List FloorSetSource → List (String × CompiledFloorSet) → TileSetCursor →
    Except Error (List (String × CompiledFloorSet) × TileSetCursor)
  | [], hmap, c => .ok (hmap, c)
  | fs :: rest, hmap, c =>
    match addTiles src (floorOffsets fs.location.1 fs.location.2) c with
    | .error e => .error e
    | .ok (cs, c') =>
      compileFloorSetList src rest (hmInsert hmap fs.identifier (buildFloorSet cs)) c'

/-- `fn compile_floor_sets`. -/
def compile_floor_sets (images : List (String × Image)) :
    List FloorSource → List (String × CompiledFloorSet) → TileSetCursor →
    Except Error (List (String × CompiledFloorSet) × TileSetCursor)
  | [], hmap, c => .ok (hmap, c)
  | fsrc :: rest, hmap, c =>
    match hmLookup images fsrc.tile_source with
    | none => .error (.Msg "missing tile_source")
    | some img =>
      match compileFloorSetList img fsrc.floor_sets hmap c with
      | .error e => .error e
      | .ok (hmap', c') => compile_floor_sets images rest hmap' c'

/-- The inner loop of `compile_wall_sets`. -/
def compileWallSetList (src : Image) :
    List WallSetSource → List (String × CompiledWallSet) → TileSetCursor →
    Except Error (List (String × CompiledWallSet) × TileSetCursor)
  | [], hmap, c => .ok (hmap, c)
  | ws :: rest, hmap, c =>
    match addTiles src (wallOffsets ws.location.1 ws.location.2) c with
    | .error e => .error e
    | .ok (cs, c') =>
      compileWallSetList src rest (hmInsert hmap ws.identifier (buildWallSet cs)) c'

/-- `fn compile_wall_sets`. -/
def compile_wall_sets (images : List (String × Image)) :
    List WallSource → List (String × CompiledWallSet) → TileSetCursor →
    Except Error (List (String × CompiledWallSet) × TileSetCursor)
  | [], hmap, c => .ok (hmap, c)
  | wsrc :: rest, hmap, c =>
    match hmLookup images wsrc.tile_source with
    | none => .error (.Msg "missing tile_source")
    | some img =>
      match compileWallSetList img wsrc.wall_sets hmap c with
      | .error e => .error e
      | .ok (hmap', c') => compile_wall_sets images rest hmap' c'

/-- Largest `k ≤ m` with `k * k ≤ n` (auxiliary for `isqrt`). -/
def isqrtAux : Nat → Nat → Nat
  | 0, _ => 0
  | m + 1, n => if (m + 1) * (m + 1) ≤ n then m + 1 else isqrtAux m n

/-- `(n as f64).sqrt().floor() as u32`: the integer square root (see the
header comment for why the floating-point round trip is exact here). -/
def isqrt (n : Nat) : Nat := isqrtAux n n

/-- The atlas pixel dimensions computed by `compile_tile_set_module`:
`root = floor(sqrt(total_tiles)) + 1`, sides `root * tile_size`. -/
def tileSetImageSize (m : TileSetModule) : Nat × Nat :=
  let root := isqrt m.num_tiles + 1
  (root * m.tile_size.1, root * m.tile_size.2)

/-- The in-memory part of `fn compile_tile_set_module`: document parsing and
image loading are modelled by receiving the parsed `TileSetModule` and the
loaded `identifier → image` map directly; the two output-file writes are
modelled separately (`compile_tile_set_module` below).  The `assert!` is
embedded as a guard whose failure branch is proved unreachable.  Returns
the compiled coordinate-map document together with the finished atlas
image held by the cursor. -/
def compileModule (m : TileSetModule) (images : List (String × Image)) :
    Except Error (CompiledTileSet × Image) :=
  let total := m.num_tiles
  let root := isqrt total + 1
  if root * root > total then
    let c0 := TileSetCursor.new (tileSetImageSize m) m.tile_size
    match compile_floor_sets images m.floor_sources [] c0 with
    | .error e => .error e
    | .ok (floors, c1) =>
      match compile_wall_sets images m.wall_sources [] c1 with
      | .error e => .error e
      | .ok (walls, c2) =>
        .ok ({ identifier := m.identifier
               tile_size := m.tile_size
               image_path := m.out_image_path
               floor_sets := floors
               wall_sets := walls }, c2.img)
  else .error (.Msg "assertion failed")

/-- The two output artifacts of one compile run. -/
inductive WriteEvent where
  | tileSetDoc : WriteEvent
  | atlasImage : WriteEvent
deriving DecidableEq

/-- `fn compile_tile_set_module` including its write phase: after the
in-memory compile succeeds, the coordinate-map document is created and
written first, then the atlas image.  `jsonOk` / `imgOk` say whether the
respective create-and-write succeeds (disk errors); the returned list
records which output files the run wrote, in order. -/
def compile_tile_set_module (m : TileSetModule) (images : List (String × Image))
    (jsonOk imgOk : Bool) : Except Error Unit × List WriteEvent :=
  match compileModule m images with
  | .error e => (.error e, [])
  | .ok _ =>
    if jsonOk then
      if imgOk then (.ok (), [.tileSetDoc, .atlasImage])
      else (.error .IOErr, [.tileSetDoc])
    else (.error .IOErr, [])

/-!
## Serialization of the coordinate-map document

`serde_json::ser::to_writer` emits the struct fields of `CompiledTileSet`
in declaration order, and the entries of each `HashMap` in the map's
iteration order.  The iteration order of `std::collections::HashMap` is
not specified and varies between processes (the hasher is randomly
seeded), so it is an explicit argument here: a run of the compiler is the
pure compile plus one serialization order per map.  The byte details of
the encoding are irrelevant to the claims; what matters is that two
different entry orders of the same map yield different documents, which
any injective-per-entry encoding shows. -/

/-- Encode one coordinate pair. -/
def encCoord (p : Nat × Nat) : String :=
  "(" ++ toString p.1 ++ "," ++ toString p.2 ++ ")"

/-- Encode a coordinate list. -/
def encCoords (l : List (Nat × Nat)) : String := String.join (l.map encCoord)

/-- Encode one `CompiledFloorSet`. -/
def encFloorSet (f : CompiledFloorSet) : String :=
  "numpad:" ++ encCoords f.numpad ++ ";top_bottom:" ++ encCoords f.top_bottom ++
    ";left_right:" ++ encCoords f.left_right ++
    ";closed_center:" ++ encCoord f.closed_center

/-- Encode one `CompiledWallSet`. -/
def encWallSet (w : CompiledWallSet) : String :=
  "circle:" ++ encCoords w.circle ++ ";center_point:" ++ encCoord w.center_point ++
    ";wall:" ++ encCoord w.wall ++ ";cross:" ++ encCoords w.cross

/-- Encode the floor-set map entry for key `k`. -/
def floorEntry (mfs : List (String × CompiledFloorSet)) (k : String) : String :=
  k ++ "=" ++ (match hmLookup mfs k with | some v => encFloorSet v | none => "") ++ ";"

/-- Encode the wall-set map entry for key `k`. -/
def wallEntry (mws : List (String × CompiledWallSet)) (k : String) : String :=
  k ++ "=" ++ (match hmLookup mws k with | some v => encWallSet v | none => "") ++ ";"

/-- Serialize a `CompiledTileSet`, iterating the floor-set map in key order
`σf` and the wall-set map in key order `σw`. -/
def serializeCompiled (σf σw : List String) (c : CompiledTileSet) : String :=
  c.identifier ++ "|" ++ encCoord c.tile_size ++ "|" ++ c.image_path ++ "|" ++
    String.join (σf.map (floorEntry c.floor_sets)) ++ "|" ++
    String.join (σw.map (wallEntry c.wall_sets))

/-- One full compiler run: the deterministic in-memory compile followed by
serialization under the hash-iteration orders `σf`, `σw` of that run.
Returns the coordinate-map document bytes and the atlas image. -/
def runCompiler (m : TileSetModule) (images : List (String × Image))
    (σf σw : List String) : Except Error (String × Image) :=
  match compileModule m images with
  | .error e => .error e
  | .ok (cts, img) => .ok (serializeCompiled σf σw cts, img)

/-- The coordinate-map document produced by a run, when the run succeeds. -/
def runDoc (m : TileSetModule) (images : List (String × Image))
    (σf σw : List String) : Option String :=
  match runCompiler m images σf σw with
  | .ok (s, _) => some s
  | .error _ => none

/-!
## Concrete fixtures

`sheetImg` is an 8 × 3-tile source sheet (tile size `(1,1)`) whose tile
`(i, j)` has the distinct nonzero pixel value `10 * j + i + 1`. -/

/-- A 8 × 3 source sheet with pairwise distinct, nonzero pixels. -/
def sheetImg : Image :=
  { width := 8, height := 3, pix := fun i j => 10 * j + i + 1 }

/-- A module with one floor source holding one floor set `"f"` at tile
origin `(0,0)`; 16 tiles total, atlas side `isqrt 16 + 1 = 5`. -/
def oneFloorM : TileSetModule :=
  { identifier := "one", tile_size := (1, 1), out_tile_set_path := "one.json",
    out_image_path := "one.png",
    tile_sources := [{ identifier := "s", image_path := "s.png" }],
    floor_sources :=
      [{ tile_source := "s",
         floor_sets := [{ identifier := "f", location := (0, 0) }] }],
    wall_sources := [] }

/-- A module with two floor sets `"a"`, `"b"` (32 tiles, atlas side 6). -/
def twoFloorM : TileSetModule :=
  { identifier := "two", tile_size := (1, 1), out_tile_set_path := "two.json",
    out_image_path := "two.png",
    tile_sources := [{ identifier := "s", image_path := "s.png" }],
    floor_sources :=
      [{ tile_source := "s",
         floor_sets := [{ identifier := "a", location := (0, 0) },
                        { identifier := "b", location := (0, 0) }] }],
    wall_sources := [] }

/-- A module with two floor sets that share the identifier `"dup"`. -/
def dupM : TileSetModule :=
  { identifier := "dup", tile_size := (1, 1), out_tile_set_path := "dup.json",
    out_image_path := "dup.png",
    tile_sources := [{ identifier := "s", image_path := "s.png" }],
    floor_sources :=
      [{ tile_source := "s",
         floor_sets := [{ identifier := "dup", location := (0, 0) },
                        { identifier := "dup", location := (1, 0) }] }],
    wall_sources := [] }

/-- A module with no floor or wall sources (0 tiles, atlas side 1). -/
def emptyM : TileSetModule :=
  { identifier := "empty", tile_size := (3, 2), out_tile_set_path := "e.json",
    out_image_path := "e.png",
    tile_sources := [], floor_sources := [], wall_sources := [] }

/-- The coordinate map of compiling `emptyM`. -/
def emptyCts : CompiledTileSet :=
  { identifier := "empty", tile_size := (3, 2), image_path := "e.png",
    floor_sets := [], wall_sets := [] }

/-- The atlas of compiling `emptyM` (one 3 × 2 tile, all zero). -/
def emptyAtlas : Image := Image.new 3 2

/-- A fresh cursor over a 2 × 2-pixel atlas with tile size `(1,1)`. -/
def c1cur : TileSetCursor := TileSetCursor.new (2, 2) (1, 1)

/-- A 1 × 1 source image whose only pixel is 7. -/
def c1src : Image := { width := 1, height := 1, pix := fun _ _ => 7 }

/-- The floor-set value recorded for `"dup"` when `dupM` is compiled: it is
built from the 16 placements of the SECOND `"dup"` item (placements
16..31; the recorded coordinates are the post-advance cursor positions
17..32 on the side-6 grid). -/
def dupSecondValue : CompiledFloorSet :=
  { numpad := [(5, 4), (0, 5), (1, 5), (4, 3), (5, 3), (0, 4), (5, 2), (0, 3), (1, 3)]
    top_bottom := [(2, 3), (1, 4), (2, 5)]
    left_right := [(2, 4), (3, 4), (4, 4)]
    closed_center := (3, 3) }

/-!
## Placement geometry

`add_tile` copies to the cursor position current at the start of the call
and then applies `cursorAdvance`; starting from `(0, 0)`, the copy target
of the `k`-th placement (0-based) of a compile is therefore
`cursorAdvance` iterated `k` times, `locAfter` below. -/

/-- The cursor position before the `(k+1)`-st placement, i.e. the copy
target of the `k`-th placement (0-based): `cursorAdvance` iterated `k`
times from the initial position `(0, 0)`. -/
def locAfter (width : Nat) (ts : Nat × Nat) (k : Nat) : Nat × Nat :=
  (cursorAdvance width ts)^[k] (0, 0)

/-- Pixel `(a, b)` lies in the rectangle with origin `p` and size `s`. -/
def inRect (p s : Nat × Nat) (a b : Nat) : Prop :=
  p.1 ≤ a ∧ a < p.1 + s.1 ∧ p.2 ≤ b ∧ b < p.2 + s.2

/-- The two pixel rectangles share no pixel. -/
def rectDisjoint (p s q t : Nat × Nat) : Prop :=
  ∀ a b, inRect p s a b → ¬inRect q t a b

/-- Invariant of the compile loops: after `k` placements the cursor holds
the allocated `side * tile_size` atlas and sits at grid cell
`(k % side, k / side)` in pixel units. -/
structure CurOK (side tsw tsh k : Nat) (c : TileSetCursor) : Prop where
  hw : c.img.width = side * tsw
  hh : c.img.height = side * tsh
  hts : c.tile_size = (tsw, tsh)
  hloc : c.loc = (k % side * tsw, k / side * tsh)

/-- The number of `add_tile` calls a compile of `m` performs: one per
offset of `floorOffsets` per floor set, one per offset of `wallOffsets`
per wall set, in both cases over every source. -/
def modulePlacements (m : TileSetModule) : Nat :=
  (m.floor_sources.map (fun f =>
    (f.floor_sets.map (fun s => (floorOffsets s.location.1 s.location.2).length)).sum)).sum
  + (m.wall_sources.map (fun w =>
    (w.wall_sets.map (fun s => (wallOffsets s.location.1 s.location.2).length)).sum)).sum

/-!
## Format Resolver and Validator, modelled from the spec

The spec (sections 3, 4.1, 7) describes format documents
(`InputTileFormat`, `OutputTileFormat`) and a Format Resolver and
Validator that cross-checks them before any pixel work.  No such code
exists under `src/`: in `lib.rs` the two formats are hard-coded (the
floor and wall offset patterns and the constants 16 and 13), so a part
count mismatch is not expressible against `TileSetModule`.  The
definitions below model the missing component from the spec's words. -/

/-- Modelled from the spec: the error taxonomy of section 7. -/
inductive SpecError where
  | IOFailure : SpecError
  | DecodeFailure : SpecError
  | FormatMismatch : SpecError
  | PartCountMismatch : SpecError
  | MissingSourceReference : SpecError
  | DuplicateItem : SpecError
  | PackingOverflow : SpecError
deriving DecidableEq

/-- Modelled from the spec: `TileSource` of section 3 (`image_path` plus
the uniform `tile_size` of the sheet). -/
structure SpecTileSource where
  image_path : String
  tile_size : Nat × Nat

/-- Modelled from the spec: `InputTileFormat` — part name to ordered
offset list. -/
structure InputTileFormat where
  fmt_name : String
  parts : List (String × List (Nat × Nat))

/-- Modelled from the spec: `OutputTileFormat` — part name to expected
tile count. -/
structure OutputTileFormat where
  counts : List (String × Nat)

/-- Modelled from the spec: `TileSetSourceItem`. -/
structure SpecItem where
  id : String
  loc : Nat × Nat

/-- Modelled from the spec: `TileSetSourceGroup` with its references
already resolved. -/
structure SpecGroup where
  src : SpecTileSource
  fmt : InputTileFormat
  outFmt : OutputTileFormat
  items : List SpecItem

/-- Modelled from the spec: `TileSetSource`. -/
structure SpecTileSetSource where
  tile_size : Nat × Nat
  groups : List SpecGroup

/-- Offset list of a named part of an `InputTileFormat` (absent parts have
the empty offset list). -/
def lookupOffsets (parts : List (String × List (Nat × Nat))) (name : String) :
    List (Nat × Nat) :=
  match parts with
  | [] => []
  | (n, offs) :: rest => if n = name then offs else lookupOffsets rest name

/-- Modelled from the spec (section 4.1): validate one group — the group's
declared tile size must equal the set's, and for every part name present
in the `OutputTileFormat` the `InputTileFormat` offset list must have
exactly the declared count. -/
def validateGroup (setTs : Nat × Nat) (g : SpecGroup) : Except SpecError Unit :=
  if g.src.tile_size ≠ setTs then .error .FormatMismatch
  else if g.outFmt.counts.all
      (fun pc => (lookupOffsets g.fmt.parts pc.1).length == pc.2) then .ok ()
  else .error .PartCountMismatch

/-- Modelled from the spec: validate every group in order, aborting at the
first failure. -/
def validateGroups (setTs : Nat × Nat) : List SpecGroup → Except SpecError Unit
  | [] => .ok ()
  | g :: rest =>
    match validateGroup setTs g with
    | .error e => .error e
    | .ok _ => validateGroups setTs rest

/-- Modelled from the spec: the two-pass compile of section 4.4 —
validation runs first, before any pixel work, and the two output
artifacts exist only when the whole compile succeeds (the packing pass is
irrelevant to the validation-rejection claim and is abstracted to the
artifact list it would emit). -/
def specCompileArtifacts (s : SpecTileSetSource) : Except SpecError (List String) :=
  match validateGroups s.tile_size s.groups with
  | .error e => .error e
  | .ok _ => .ok ["coordinate_map_doc", "atlas_image"]

/-- Modelled from the spec: a concrete group whose output format declares
part `"a"` with count 2 while the input format supplies 1 offset. -/
def c8group : SpecGroup :=
  { src := { image_path := "sheet.png", tile_size := (16, 16) }
    fmt := { fmt_name := "floor", parts := [("a", [(0, 0)])] }
    outFmt := { counts := [("a", 2)] }
    items := [{ id := "x", loc := (0, 0) }] }

/-- Modelled from the spec: a one-group spec wrapping `c8group`. -/
def c8spec : SpecTileSetSource := { tile_size := (16, 16), groups := [c8group] }

/-!
## Helper lemmas -/

/-- Summing a constant over a list. -/
theorem sum_map_const {β : Type} (l : List β) (c : Nat) :
    (l.map (fun _ => c)).sum = l.length * c := by
  induction l with
  | nil => simp
  | cons a t ih =>
    simp [List.map_cons, List.sum_cons, ih, Nat.succ_mul, Nat.add_comm]

/-- Every `add_tile` call contributes exactly one returned coordinate:
a successful `addTiles` run returns as many coordinates as it got
source-tile coordinates. -/
theorem addTiles_length (src : Image) :
    ∀ (tcs : List (Nat × Nat)) (c : TileSetCursor) (ps : List (Nat × Nat))
      (c' : TileSetCursor), addTiles src tcs c = .ok (ps, c') →
      ps.length = tcs.length := by
  intro tcs
  induction tcs with
  | nil =>
    intro c ps c' h
    simp only [addTiles, Except.ok.injEq, Prod.mk.injEq] at h
    rw [← h.1]
  | cons tc rest ih =>
    intro c ps c' h
    simp only [addTiles] at h
    cases hadd : c.add_tile src tc with
    | error e => rw [hadd] at h; exact absurd h (by simp)
    | ok pc =>
      obtain ⟨p, c1⟩ := pc
      rw [hadd] at h
      dsimp only at h
      cases hrec : addTiles src rest c1 with
      | error e => rw [hrec] at h; exact absurd h (by simp)
      | ok qs =>
        obtain ⟨ps1, c2⟩ := qs
        rw [hrec] at h
        simp only [Except.ok.injEq, Prod.mk.injEq] at h
        rw [← h.1]
        simp [ih c1 ps1 c2 hrec]

/-- The per-set placement counts add up to `TileSetModule::num_tiles`. -/
theorem modulePlacements_eq (m : TileSetModule) :
    modulePlacements m = m.num_tiles := by
  have hf : (fun f : FloorSource =>
      (f.floor_sets.map (fun s => (floorOffsets s.location.1 s.location.2).length)).sum)
      = FloorSource.num_tiles := by
    funext f
    have h1 : (fun s : FloorSetSource => (floorOffsets s.location.1 s.location.2).length)
        = fun _ => 16 := funext fun s => rfl
    rw [h1, sum_map_const]
    rfl
  have hw : (fun w : WallSource =>
      (w.wall_sets.map (fun s => (wallOffsets s.location.1 s.location.2).length)).sum)
      = WallSource.num_tiles := by
    funext w
    have h1 : (fun s : WallSetSource => (wallOffsets s.location.1 s.location.2).length)
        = fun _ => 13 := funext fun s => rfl
    rw [h1, sum_map_const]
    rfl
  unfold modulePlacements TileSetModule.num_tiles
  rw [hf, hw]

/-!
## Claim theorems -/

/-- C1: false of the code.  `add_tile` copies the tile to the cursor
position current at the start of the call but returns the cursor position
AFTER advancing.  Concretely: on a fresh 2 by 2 atlas with tile size
`(1,1)`, adding tile `(0,0)` of a source whose pixel is 7 writes pixel 7
at atlas `(0,0)`, leaves atlas `(1,0)` untouched at 0, yet returns
`(1,0)` — not the copy position `(0,0)`. -/
theorem c1_return_is_not_copy_position :
    (match c1cur.add_tile c1src (0, 0) with
     | .ok (p, c') => some (p, c'.img.pix 0 0, c'.img.pix 1 0, c'.loc)
     | .error _ => none) = some ((1, 0), 7, 0, (1, 0)) := by decide

/-- C2: false of the code.  Compiling `oneFloorM` over `sheetImg`, the
coordinate map records `(1,0)` as the destination of part n7 (numpad
index 6), whose source rectangle is tile `(0,0)` with pixel value 1; but
the atlas pixel at the recorded coordinate `(1,0)` is 2 (the content of
source tile `(1,0)`, the NEXT placement), so reading back the recorded
rectangle does not reproduce the source rectangle. -/
theorem c2_readback_differs_from_source :
    ((match compileModule oneFloorM [("s", sheetImg)] with
      | .ok (cts, img) =>
        (hmLookup cts.floor_sets "f").map
          (fun (f : CompiledFloorSet) => (f.numpad.getD 6 (0, 0), img.pix 1 0, img.pix 0 0))
      | .error _ => none) = some ((1, 0), 2, 1))
    ∧ sheetImg.pix 0 0 = 1 ∧ sheetImg.pix 1 0 = 2 := by decide

/-- C3, counterexample: two runs on identical inputs whose `HashMap`
iteration orders differ (both orders enumerate exactly the keys `"a"`,
`"b"` of the compiled map) serialize different coordinate-map documents,
so the document is not byte-identical on every run. -/
theorem c3_doc_depends_on_hash_order :
    runDoc twoFloorM [("s", sheetImg)] ["a", "b"] []
        ≠ runDoc twoFloorM [("s", sheetImg)] ["b", "a"] []
    ∧ (runDoc twoFloorM [("s", sheetImg)] ["a", "b"] []).isSome = true := by decide

/-- C3, amended: on identical inputs every run produces the identical
atlas image and the identical coordinate-map contents; only the entry
order of the serialized document follows the run's `HashMap` iteration
order, so two runs' documents are entry-permutations of each other
rather than byte-identical. -/
theorem c3_deterministic_up_to_entry_order (m : TileSetModule)
    (images : List (String × Image)) (σf σf' σw σw' : List String)
    (hf : σf.Perm σf') (hw : σw.Perm σw') :
    (runCompiler m images σf σw).map Prod.snd
        = (runCompiler m images σf' σw').map Prod.snd
    ∧ ∀ cts img, compileModule m images = .ok (cts, img) →
        (σf.map (floorEntry cts.floor_sets)).Perm (σf'.map (floorEntry cts.floor_sets))
        ∧ (σw.map (wallEntry cts.wall_sets)).Perm (σw'.map (wallEntry cts.wall_sets)) := by
  constructor
  · cases h : compileModule m images <;> simp [runCompiler, h, Except.map]
  · intro cts img _
    exact ⟨hf.map _, hw.map _⟩

/-- C3, witness for the amended theorem at a concrete input. -/
theorem c3_amended_witness :
    (runCompiler twoFloorM [("s", sheetImg)] ["a", "b"] []).map Prod.snd
      = (runCompiler twoFloorM [("s", sheetImg)] ["b", "a"] []).map Prod.snd :=
  (c3_deterministic_up_to_entry_order twoFloorM [("s", sheetImg)]
    ["a", "b"] ["b", "a"] [] [] (List.Perm.swap "b" "a" []) (List.Perm.refl [])).1

/-- C4, counterexample: `dupM` has two floor sets that share the
identifier `"dup"` under the floor format, yet compilation SUCCEEDS (no
`DuplicateItem` exists in the code's `Error` enum) and the coordinate map
holds a single `"dup"` entry: the second item's value, which silently
replaced the first. -/
theorem c4_duplicate_id_compiles :
    (match compileModule dupM [("s", sheetImg)] with
     | .ok (cts, _) => some cts.floor_sets
     | .error _ => none) = some [("dup", dupSecondValue)] := by decide

/-- C4, amended: a duplicate identifier under the same format is not an
error; `HashMap::insert` makes the later item's compiled value replace
the earlier entry (last-wins lookup in general, and concretely the
`dupM` compile succeeds with exactly the second item's value under
`"dup"`). -/
theorem c4_second_item_replaces_first :
    (∀ {α : Type} (hm : List (String × α)) (k : String) (v : α),
        hmLookup (hmInsert hm k v) k = some v)
    ∧ (match compileModule dupM [("s", sheetImg)] with
       | .ok (cts, _) => some (hmLookup cts.floor_sets "dup", cts.floor_sets.length)
       | .error _ => none) = some (some dupSecondValue, 1) := by
  constructor
  · intro α hm k v
    simp [hmInsert, hmLookup]
  · decide

/-- C9, counterexample: a run of `compile_tile_set_module` in which the
in-memory compile succeeds, the coordinate-map document write succeeds,
and the atlas-image write fails, returns an error AND has already written
the coordinate-map document — a failing run does not always leave both
output files unwritten. -/
theorem c9_failing_run_leaves_doc :
    compile_tile_set_module emptyM [] true false
      = (.error .IOErr, [.tileSetDoc]) := rfl

/-- C9, amended: output files are written only after the whole in-memory
compile (coordinate map and atlas buffer) is complete — a run that fails
before the write phase writes nothing, and the atlas image is written
only on fully successful runs — but a failure while writing the atlas
image leaves the already-written coordinate-map document behind. -/
theorem c9_writes_only_after_compile (m : TileSetModule)
    (images : List (String × Image)) (jsonOk imgOk : Bool) :
    ((compile_tile_set_module m images jsonOk imgOk).1 = .ok ()
      → (compile_tile_set_module m images jsonOk imgOk).2
          = [.tileSetDoc, .atlasImage])
    ∧ (WriteEvent.atlasImage ∈ (compile_tile_set_module m images jsonOk imgOk).2
      → (compile_tile_set_module m images jsonOk imgOk).1 = .ok ())
    ∧ ((compile_tile_set_module m images jsonOk imgOk).2 ≠ []
      → ∃ r, compileModule m images = .ok r) := by
  cases h : compileModule m images <;> cases jsonOk <;> cases imgOk <;>
    simp [compile_tile_set_module, h]

/-- C9, witness for the amended theorem at a concrete input. -/
theorem c9_amended_witness : ∃ r, compileModule emptyM [] = .ok r :=
  (c9_writes_only_after_compile emptyM [] true false).2.2 (by decide)

/-- C10: each floor set performs exactly `TILES_IN_FLOOR_SET = 16`
placements and records 16 coordinates (9 numpad + 3 top_bottom +
3 left_right + 1 closed_center), each wall set exactly
`TILES_IN_WALL_SET = 13` (6 circle + 1 center_point + 1 wall + 5 cross),
every placement returns exactly one coordinate, and the total number of
placements a compile performs equals `TileSetModule::num_tiles`, the
value the capacity planner uses. -/
theorem c10_placement_counts :
    TILES_IN_FLOOR_SET = 16 ∧ TILES_IN_WALL_SET = 13
    ∧ (∀ x y, (floorOffsets x y).length = TILES_IN_FLOOR_SET)
    ∧ (∀ x y, (wallOffsets x y).length = TILES_IN_WALL_SET)
    ∧ (∀ cs : List (Nat × Nat),
        (buildFloorSet cs).numpad.length = 9
        ∧ (buildFloorSet cs).top_bottom.length = 3
        ∧ (buildFloorSet cs).left_right.length = 3)
    ∧ (∀ cs : List (Nat × Nat),
        (buildWallSet cs).circle.length = 6 ∧ (buildWallSet cs).cross.length = 5)
    ∧ (∀ (src : Image) (tcs : List (Nat × Nat)) (c : TileSetCursor) ps c',
        addTiles src tcs c = .ok (ps, c') → ps.length = tcs.length)
    ∧ ∀ m : TileSetModule, modulePlacements m = m.num_tiles := by
  exact ⟨rfl, rfl, fun x y => rfl, fun x y => rfl,
    fun cs => ⟨rfl, rfl, rfl⟩, fun cs => ⟨rfl, rfl⟩,
    fun src tcs c ps c' h => addTiles_length src tcs c ps c' h,
    fun m => modulePlacements_eq m⟩

/-- C10, witness: a concrete one-placement `addTiles` run returning one
coordinate. -/
theorem c10_witness :
    ([((1 : Nat), (0 : Nat))]).length = ([((0 : Nat), (0 : Nat))]).length :=
  c10_placement_counts.2.2.2.2.2.2.1 c1src [(0, 0)] c1cur [(1, 0)]
    (match addTiles c1src [(0, 0)] c1cur with
     | .ok (_, c) => c
     | .error _ => c1cur) rfl

end Chickpea

namespace Chickpea

/-- `copy_from` never changes the destination dimensions. -/
theorem copyFrom_dims (dst other : Image) (x y : Nat) :
    (copyFrom dst other x y).2.width = dst.width
    ∧ (copyFrom dst other x y).2.height = dst.height := by
  unfold copyFrom
  split <;> simp

/-- A successful `add_tile` call: the atlas dimensions and tile size are
unchanged, the new cursor position is `cursorAdvance` of the old one, and
the returned coordinate is that advanced position. -/
theorem add_tile_state {c : TileSetCursor} {src : Image} {tc p : Nat × Nat}
    {c' : TileSetCursor} (h : c.add_tile src tc = .ok (p, c')) :
    c'.img.width = c.img.width ∧ c'.img.height = c.img.height
    ∧ c'.tile_size = c.tile_size
    ∧ c'.loc = cursorAdvance c.img.width c.tile_size c.loc
    ∧ p = cursorAdvance c.img.width c.tile_size c.loc := by
  simp only [TileSetCursor.add_tile] at h
  split at h
  · simp only [Except.ok.injEq, Prod.mk.injEq] at h
    obtain ⟨hp, hc⟩ := h
    subst hc
    refine ⟨?_, ?_, rfl, rfl, ?_⟩
    · exact (copyFrom_dims _ _ _ _).1
    · exact (copyFrom_dims _ _ _ _).2
    · rw [← hp]
  · exact absurd h (by simp)

/-- A successful `addTiles` run preserves atlas dimensions and tile size. -/
theorem addTiles_state (src : Image) :
    ∀ (tcs : List (Nat × Nat)) (c : TileSetCursor) (ps : List (Nat × Nat))
      (c' : TileSetCursor), addTiles src tcs c = .ok (ps, c') →
      c'.img.width = c.img.width ∧ c'.img.height = c.img.height
      ∧ c'.tile_size = c.tile_size := by
  intro tcs
  induction tcs with
  | nil =>
    intro c ps c' h
    simp only [addTiles, Except.ok.injEq, Prod.mk.injEq] at h
    rw [← h.2]
    exact ⟨rfl, rfl, rfl⟩
  | cons tc rest ih =>
    intro c ps c' h
    simp only [addTiles] at h
    cases hadd : c.add_tile src tc with
    | error e => rw [hadd] at h; exact absurd h (by simp)
    | ok pc =>
      obtain ⟨p, c1⟩ := pc
      rw [hadd] at h
      dsimp only at h
      cases hrec : addTiles src rest c1 with
      | error e => rw [hrec] at h; exact absurd h (by simp)
      | ok qs =>
        obtain ⟨ps1, c2⟩ := qs
        rw [hrec] at h
        simp only [Except.ok.injEq, Prod.mk.injEq] at h
        obtain ⟨h1, h2⟩ := h
        obtain ⟨w1, hh1, t1, _, _⟩ := add_tile_state hadd
        obtain ⟨w2, hh2, t2⟩ := ih c1 ps1 c2 hrec
        rw [← h2]
        exact ⟨w2.trans w1, hh2.trans hh1, t2.trans t1⟩

/-- `compileFloorSetList` preserves atlas dimensions and tile size. -/
theorem compileFloorSetList_state (src : Image) :
    ∀ (sets : List FloorSetSource) (hmap : List (String × CompiledFloorSet))
      (c : TileSetCursor) hm' (c' : TileSetCursor),
      compileFloorSetList src sets hmap c = .ok (hm', c') →
      c'.img.width = c.img.width ∧ c'.img.height = c.img.height
      ∧ c'.tile_size = c.tile_size := by
  intro sets
  induction sets with
  | nil =>
    intro hmap c hm' c' h
    simp only [compileFloorSetList, Except.ok.injEq, Prod.mk.injEq] at h
    rw [← h.2]
    exact ⟨rfl, rfl, rfl⟩
  | cons fs rest ih =>
    intro hmap c hm' c' h
    simp only [compileFloorSetList] at h
    cases hadd : addTiles src (floorOffsets fs.location.1 fs.location.2) c with
    | error e => rw [hadd] at h; exact absurd h (by simp)
    | ok pc =>
      obtain ⟨cs, c1⟩ := pc
      rw [hadd] at h
      dsimp only at h
      obtain ⟨w1, hh1, t1⟩ := addTiles_state src _ c cs c1 hadd
      obtain ⟨w2, hh2, t2⟩ := ih _ c1 hm' c' h
      exact ⟨w2.trans w1, hh2.trans hh1, t2.trans t1⟩

/-- `compile_floor_sets` preserves atlas dimensions and tile size. -/
theorem compile_floor_sets_state (images : List (String × Image)) :
    ∀ (srcs : List FloorSource) (hmap : List (String × CompiledFloorSet))
      (c : TileSetCursor) hm' (c' : TileSetCursor),
      compile_floor_sets images srcs hmap c = .ok (hm', c') →
      c'.img.width = c.img.width ∧ c'.img.height = c.img.height
      ∧ c'.tile_size = c.tile_size := by
  intro srcs
  induction srcs with
  | nil =>
    intro hmap c hm' c' h
    simp only [compile_floor_sets, Except.ok.injEq, Prod.mk.injEq] at h
    rw [← h.2]
    exact ⟨rfl, rfl, rfl⟩
  | cons fsrc rest ih =>
    intro hmap c hm' c' h
    simp only [compile_floor_sets] at h
    cases hlook : hmLookup images fsrc.tile_source with
    | none => rw [hlook] at h; exact absurd h (by simp)
    | some img =>
      rw [hlook] at h
      dsimp only at h
      cases hfl : compileFloorSetList img fsrc.floor_sets hmap c with
      | error e => rw [hfl] at h; exact absurd h (by simp)
      | ok pc =>
        obtain ⟨hm1, c1⟩ := pc
        rw [hfl] at h
        dsimp only at h
        obtain ⟨w1, hh1, t1⟩ := compileFloorSetList_state img _ hmap c hm1 c1 hfl
        obtain ⟨w2, hh2, t2⟩ := ih hm1 c1 hm' c' h
        exact ⟨w2.trans w1, hh2.trans hh1, t2.trans t1⟩

/-- `compileWallSetList` preserves atlas dimensions and tile size. -/
theorem compileWallSetList_state (src : Image) :
    ∀ (sets : List WallSetSource) (hmap : List (String × CompiledWallSet))
      (c : TileSetCursor) hm' (c' : TileSetCursor),
      compileWallSetList src sets hmap c = .ok (hm', c') →
      c'.img.width = c.img.width ∧ c'.img.height = c.img.height
      ∧ c'.tile_size = c.tile_size := by
  intro sets
  induction sets with
  | nil =>
    intro hmap c hm' c' h
    simp only [compileWallSetList, Except.ok.injEq, Prod.mk.injEq] at h
    rw [← h.2]
    exact ⟨rfl, rfl, rfl⟩
  | cons ws rest ih =>
    intro hmap c hm' c' h
    simp only [compileWallSetList] at h
    cases hadd : addTiles src (wallOffsets ws.location.1 ws.location.2) c with
    | error e => rw [hadd] at h; exact absurd h (by simp)
    | ok pc =>
      obtain ⟨cs, c1⟩ := pc
      rw [hadd] at h
      dsimp only at h
      obtain ⟨w1, hh1, t1⟩ := addTiles_state src _ c cs c1 hadd
      obtain ⟨w2, hh2, t2⟩ := ih _ c1 hm' c' h
      exact ⟨w2.trans w1, hh2.trans hh1, t2.trans t1⟩

/-- `compile_wall_sets` preserves atlas dimensions and tile size. -/
theorem compile_wall_sets_state (images : List (String × Image)) :
    ∀ (srcs : List WallSource) (hmap : List (String × CompiledWallSet))
      (c : TileSetCursor) hm' (c' : TileSetCursor),
      compile_wall_sets images srcs hmap c = .ok (hm', c') →
      c'.img.width = c.img.width ∧ c'.img.height = c.img.height
      ∧ c'.tile_size = c.tile_size := by
  intro srcs
  induction srcs with
  | nil =>
    intro hmap c hm' c' h
    simp only [compile_wall_sets, Except.ok.injEq, Prod.mk.injEq] at h
    rw [← h.2]
    exact ⟨rfl, rfl, rfl⟩
  | cons wsrc rest ih =>
    intro hmap c hm' c' h
    simp only [compile_wall_sets] at h
    cases hlook : hmLookup images wsrc.tile_source with
    | none => rw [hlook] at h; exact absurd h (by simp)
    | some img =>
      rw [hlook] at h
      dsimp only at h
      cases hwl : compileWallSetList img wsrc.wall_sets hmap c with
      | error e => rw [hwl] at h; exact absurd h (by simp)
      | ok pc =>
        obtain ⟨hm1, c1⟩ := pc
        rw [hwl] at h
        dsimp only at h
        obtain ⟨w1, hh1, t1⟩ := compileWallSetList_state img _ hmap c hm1 c1 hwl
        obtain ⟨w2, hh2, t2⟩ := ih hm1 c1 hm' c' h
        exact ⟨w2.trans w1, hh2.trans hh1, t2.trans t1⟩

/-- A successful compile's atlas has exactly the planned dimensions. -/
theorem compileModule_dims (m : TileSetModule) (images : List (String × Image))
    (cts : CompiledTileSet) (img : Image)
    (h : compileModule m images = .ok (cts, img)) :
    img.width = (tileSetImageSize m).1 ∧ img.height = (tileSetImageSize m).2 := by
  simp only [compileModule] at h
  split at h
  · cases hfl : compile_floor_sets images m.floor_sources []
        (TileSetCursor.new (tileSetImageSize m) m.tile_size) with
    | error e => rw [hfl] at h; exact absurd h (by simp)
    | ok pc =>
      obtain ⟨floors, c1⟩ := pc
      rw [hfl] at h
      dsimp only at h
      cases hwl : compile_wall_sets images m.wall_sources [] c1 with
      | error e => rw [hwl] at h; exact absurd h (by simp)
      | ok qc =>
        obtain ⟨walls, c2⟩ := qc
        rw [hwl] at h
        simp only [Except.ok.injEq, Prod.mk.injEq] at h
        obtain ⟨w1, hh1, t1⟩ := compile_floor_sets_state images _ [] _ floors c1 hfl
        obtain ⟨w2, hh2, t2⟩ := compile_wall_sets_state images _ [] c1 walls c2 hwl
        rw [← h.2]
        constructor
        · rw [w2, w1]; rfl
        · rw [hh2, hh1]; rfl
  · exact absurd h (by simp)

end Chickpea

namespace Chickpea

/-- `isqrtAux m n` dominates every `k ≤ m` with `k * k ≤ n`. -/
theorem isqrtAux_max (n : Nat) :
    ∀ (m k : Nat), k ≤ m → k * k ≤ n → k ≤ isqrtAux m n := by
  intro m
  induction m with
  | zero => intro k hk _; simpa [isqrtAux] using hk
  | succ m ih =>
    intro k hk hsq
    unfold isqrtAux
    split
    · exact hk
    · next hcond =>
      have hk' : k ≤ m := by
        rcases Nat.lt_or_ge k (m + 1) with h | h
        · omega
        · exfalso
          have : k = m + 1 := by omega
          subst this
          exact hcond hsq
      exact ih k hk' hsq

/-- The planner's assertion: `total_tiles < (floor(sqrt(total_tiles)) + 1)^2`. -/
theorem lt_succ_isqrt_sq (n : Nat) : n < (isqrt n + 1) * (isqrt n + 1) := by
  by_contra h
  push_neg at h
  have h1 : isqrt n + 1 ≤ n := by
    have h2 : (isqrt n + 1) * 1 ≤ (isqrt n + 1) * (isqrt n + 1) :=
      Nat.mul_le_mul_left _ (by omega)
    rw [Nat.mul_one] at h2
    omega
  have h3 := isqrtAux_max n n (isqrt n + 1) h1 h
  have h4 : isqrtAux n n = isqrt n := rfl
  omega

/-- Successor of the raster index: same row while the row is not full. -/
theorem succ_mod_div_of_lt (k side : Nat) (hs : 0 < side)
    (h : k % side + 1 < side) :
    (k + 1) % side = k % side + 1 ∧ (k + 1) / side = k / side := by
  have hdm := Nat.div_add_mod k side
  have e1 : k + 1 = side * (k / side) + (k % side + 1) := by omega
  constructor
  · rw [e1, Nat.mul_add_mod, Nat.mod_eq_of_lt h]
  · rw [e1, Nat.mul_add_div hs, Nat.div_eq_of_lt h, Nat.add_zero]

/-- Successor of the raster index: wrap to the next row when the row fills. -/
theorem succ_mod_div_of_eq (k side : Nat) (hs : 0 < side)
    (h : k % side + 1 = side) :
    (k + 1) % side = 0 ∧ (k + 1) / side = k / side + 1 := by
  have hdm := Nat.div_add_mod k side
  have e1 : k + 1 = side * (k / side + 1) := by rw [Nat.mul_succ]; omega
  constructor
  · rw [e1, Nat.mul_mod_right]
  · rw [e1, Nat.mul_div_cancel_left _ hs]

/-- On a `side * tsw`-wide atlas, `cursorAdvance` maps grid cell `k` to
grid cell `k + 1` of the raster order. -/
theorem cursorAdvance_grid (side tsw tsh k : Nat) (hw : 0 < tsw) (hs : 0 < side) :
    cursorAdvance (side * tsw) (tsw, tsh) (k % side * tsw, k / side * tsh)
      = ((k + 1) % side * tsw, (k + 1) / side * tsh) := by
  have hr : k % side < side := Nat.mod_lt k hs
  unfold cursorAdvance
  dsimp only
  by_cases hcase : k % side + 1 = side
  · have hcond : k % side * tsw + tsw + tsw > side * tsw := by
      have h2 : side * tsw < (k % side + 2) * tsw :=
        (Nat.mul_lt_mul_right hw).mpr (by omega)
      calc side * tsw < (k % side + 2) * tsw := h2
        _ = k % side * tsw + tsw + tsw := by ring
    rw [if_pos hcond]
    obtain ⟨hm, hd⟩ := succ_mod_div_of_eq k side hs hcase
    rw [hm, hd]
    simp [Nat.succ_mul]
  · have h2 : k % side + 1 < side := by omega
    have hcond : ¬(k % side * tsw + tsw + tsw > side * tsw) := by
      have h3 : (k % side + 2) * tsw ≤ side * tsw :=
        Nat.mul_le_mul_right tsw (by omega)
      have h4 : k % side * tsw + tsw + tsw = (k % side + 2) * tsw := by ring
      omega
    rw [if_neg hcond]
    obtain ⟨hm, hd⟩ := succ_mod_div_of_lt k side hs h2
    rw [hm, hd]
    simp [Nat.succ_mul]

/-- When the tile fits at the cursor, `add_tile` succeeds, copies at the
pre-call cursor position, and both stores and returns the advanced
position. -/
theorem add_tile_eq (c : TileSetCursor) (src : Image) (tc : Nat × Nat)
    (h1 : c.tile_size.1 + c.loc.1 ≤ c.img.width)
    (h2 : c.tile_size.2 + c.loc.2 ≤ c.img.height) :
    c.add_tile src tc = .ok (cursorAdvance c.img.width c.tile_size c.loc,
      { c with
        img := (copyFrom c.img
          (subImage src (tc.1 * c.tile_size.1) (tc.2 * c.tile_size.2)
            c.tile_size.1 c.tile_size.2) c.loc.1 c.loc.2).2
        loc := cursorAdvance c.img.width c.tile_size c.loc }) := by
  have hcopy : (copyFrom c.img
      (subImage src (tc.1 * c.tile_size.1) (tc.2 * c.tile_size.2)
        c.tile_size.1 c.tile_size.2) c.loc.1 c.loc.2).1 = true := by
    unfold copyFrom
    split
    · rfl
    · next hcond => exact absurd ⟨h1, h2⟩ hcond
  simp only [TileSetCursor.add_tile]
  rw [hcopy]

/-- One `add_tile` step under the packing invariant: with `k < side * side`
tiles placed the call succeeds and moves the cursor to grid cell `k + 1`,
returning (and recording) that advanced cell. -/
theorem add_tile_step {side tsw tsh k : Nat} {c : TileSetCursor}
    (inv : CurOK side tsw tsh k c) (hw : 0 < tsw) (hk : k < side * side)
    (src : Image) (tc : Nat × Nat) :
    ∃ c', c.add_tile src tc
        = .ok (((k + 1) % side * tsw, (k + 1) / side * tsh), c')
      ∧ CurOK side tsw tsh (k + 1) c' := by
  have hs : 0 < side := by
    rcases Nat.eq_zero_or_pos side with h | h
    · subst h; simp at hk
    · exact h
  have hr : k % side < side := Nat.mod_lt k hs
  have hq : k / side < side := (Nat.div_lt_iff_lt_mul hs).mpr hk
  have hfit1 : c.tile_size.1 + c.loc.1 ≤ c.img.width := by
    rw [inv.hts, inv.hloc, inv.hw]
    dsimp only
    have e : tsw + k % side * tsw = (k % side + 1) * tsw := by ring
    rw [e]
    exact Nat.mul_le_mul_right tsw (by omega)
  have hfit2 : c.tile_size.2 + c.loc.2 ≤ c.img.height := by
    rw [inv.hts, inv.hloc, inv.hh]
    dsimp only
    have e : tsh + k / side * tsh = (k / side + 1) * tsh := by ring
    rw [e]
    exact Nat.mul_le_mul_right tsh (by omega)
  have hadv : cursorAdvance c.img.width c.tile_size c.loc
      = ((k + 1) % side * tsw, (k + 1) / side * tsh) := by
    rw [inv.hw, inv.hts, inv.hloc]
    exact cursorAdvance_grid side tsw tsh k hw hs
  have heq := add_tile_eq c src tc hfit1 hfit2
  rw [hadv] at heq
  refine ⟨_, heq, ?_⟩
  constructor
  · exact (copyFrom_dims _ _ _ _).1.trans inv.hw
  · exact (copyFrom_dims _ _ _ _).2.trans inv.hh
  · exact inv.hts
  · rfl

end Chickpea

namespace Chickpea

/-- A whole `addTiles` block succeeds while the atlas has room, advancing
the invariant by the number of tiles placed. -/
theorem addTiles_ok {side tsw tsh : Nat} (hw : 0 < tsw) (src : Image) :
    ∀ (tcs : List (Nat × Nat)) (k : Nat) (c : TileSetCursor),
      CurOK side tsw tsh k c → k + tcs.length ≤ side * side →
      ∃ ps c', addTiles src tcs c = .ok (ps, c')
        ∧ CurOK side tsw tsh (k + tcs.length) c' := by
  intro tcs
  induction tcs with
  | nil =>
    intro k c inv _
    exact ⟨[], c, rfl, inv⟩
  | cons tc rest ih =>
    intro k c inv hb
    have hk : k < side * side := by
      simp only [List.length_cons] at hb
      omega
    obtain ⟨c1, heq, inv1⟩ := add_tile_step inv hw hk src tc
    obtain ⟨ps, c', hrec, inv'⟩ := ih (k + 1) c1 inv1
      (by simp only [List.length_cons] at hb; omega)
    refine ⟨((k + 1) % side * tsw, (k + 1) / side * tsh) :: ps, c', ?_, ?_⟩
    · simp only [addTiles, heq, hrec]
    · have e : k + (tc :: rest).length = k + 1 + rest.length := by
        simp only [List.length_cons]; omega
      rw [e]
      exact inv'

/-- `compileFloorSetList` succeeds while the atlas has room, placing
`16 · |sets|` tiles. -/
theorem compileFloorSetList_ok {side tsw tsh : Nat} (hw : 0 < tsw) (src : Image) :
    ∀ (sets : List FloorSetSource) (hmap : List (String × CompiledFloorSet))
      (k : Nat) (c : TileSetCursor),
      CurOK side tsw tsh k c →
      k + sets.length * TILES_IN_FLOOR_SET ≤ side * side →
      ∃ hm' c', compileFloorSetList src sets hmap c = .ok (hm', c')
        ∧ CurOK side tsw tsh (k + sets.length * TILES_IN_FLOOR_SET) c' := by
  intro sets
  induction sets with
  | nil =>
    intro hmap k c inv _
    exact ⟨hmap, c, rfl, inv⟩
  | cons fs rest ih =>
    intro hmap k c inv hb
    have hb16 : k + (fs :: rest).length * TILES_IN_FLOOR_SET
        = k + 16 + rest.length * TILES_IN_FLOOR_SET := by
      simp only [List.length_cons, TILES_IN_FLOOR_SET]
      omega
    obtain ⟨ps, c1, heq, inv1⟩ :=
      addTiles_ok hw src (floorOffsets fs.location.1 fs.location.2) k c inv
        (by simp only [TILES_IN_FLOOR_SET, List.length_cons] at hb ⊢
            show k + 16 ≤ side * side
            omega)
    obtain ⟨hm', c', hrec, inv'⟩ :=
      ih (hmInsert hmap fs.identifier (buildFloorSet ps)) (k + 16) c1 inv1
        (by rw [hb16] at hb; omega)
    refine ⟨hm', c', ?_, ?_⟩
    · simp only [compileFloorSetList, heq, hrec]
    · rw [hb16]
      exact inv'

/-- `compileWallSetList` succeeds while the atlas has room, placing
`13 · |sets|` tiles. -/
theorem compileWallSetList_ok {side tsw tsh : Nat} (hw : 0 < tsw) (src : Image) :
    ∀ (sets : List WallSetSource) (hmap : List (String × CompiledWallSet))
      (k : Nat) (c : TileSetCursor),
      CurOK side tsw tsh k c →
      k + sets.length * TILES_IN_WALL_SET ≤ side * side →
      ∃ hm' c', compileWallSetList src sets hmap c = .ok (hm', c')
        ∧ CurOK side tsw tsh (k + sets.length * TILES_IN_WALL_SET) c' := by
  intro sets
  induction sets with
  | nil =>
    intro hmap k c inv _
    exact ⟨hmap, c, rfl, inv⟩
  | cons ws rest ih =>
    intro hmap k c inv hb
    have hb13 : k + (ws :: rest).length * TILES_IN_WALL_SET
        = k + 13 + rest.length * TILES_IN_WALL_SET := by
      simp only [List.length_cons, TILES_IN_WALL_SET]
      omega
    obtain ⟨ps, c1, heq, inv1⟩ :=
      addTiles_ok hw src (wallOffsets ws.location.1 ws.location.2) k c inv
        (by simp only [TILES_IN_WALL_SET, List.length_cons] at hb ⊢
            show k + 13 ≤ side * side
            omega)
    obtain ⟨hm', c', hrec, inv'⟩ :=
      ih (hmInsert hmap ws.identifier (buildWallSet ps)) (k + 13) c1 inv1
        (by rw [hb13] at hb; omega)
    refine ⟨hm', c', ?_, ?_⟩
    · simp only [compileWallSetList, heq, hrec]
    · rw [hb13]
      exact inv'

/-- `compile_floor_sets` either reports a missing tile source or succeeds,
placing exactly the floor sources' tile count. -/
theorem compile_floor_sets_res {side tsw tsh : Nat} (hw : 0 < tsw)
    (images : List (String × Image)) :
    ∀ (srcs : List FloorSource) (hmap : List (String × CompiledFloorSet))
      (k : Nat) (c : TileSetCursor), CurOK side tsw tsh k c →
      k + (srcs.map FloorSource.num_tiles).sum ≤ side * side →
      compile_floor_sets images srcs hmap c = .error (.Msg "missing tile_source")
      ∨ ∃ hm' c', compile_floor_sets images srcs hmap c = .ok (hm', c')
          ∧ CurOK side tsw tsh (k + (srcs.map FloorSource.num_tiles).sum) c' := by
  intro srcs
  induction srcs with
  | nil =>
    intro hmap k c inv _
    right
    exact ⟨hmap, c, rfl, inv⟩
  | cons fsrc rest ih =>
    intro hmap k c inv hb
    have hsum : k + ((fsrc :: rest).map FloorSource.num_tiles).sum
        = k + fsrc.floor_sets.length * TILES_IN_FLOOR_SET
          + (rest.map FloorSource.num_tiles).sum := by
      simp only [List.map_cons, List.sum_cons, FloorSource.num_tiles]
      omega
    cases hlook : hmLookup images fsrc.tile_source with
    | none =>
      left
      simp only [compile_floor_sets, hlook]
    | some img =>
      obtain ⟨hm1, c1, heq, inv1⟩ :=
        compileFloorSetList_ok hw img fsrc.floor_sets hmap k c inv
          (by rw [hsum] at hb; omega)
      rcases ih hm1 (k + fsrc.floor_sets.length * TILES_IN_FLOOR_SET) c1 inv1
          (by rw [hsum] at hb; omega) with herr | ⟨hm', c', hok, inv'⟩
      · left
        simp only [compile_floor_sets, hlook, heq]
        exact herr
      · right
        refine ⟨hm', c', ?_, ?_⟩
        · simp only [compile_floor_sets, hlook, heq]
          exact hok
        · rw [hsum]
          exact inv'

/-- `compile_wall_sets` either reports a missing tile source or succeeds,
placing exactly the wall sources' tile count. -/
theorem compile_wall_sets_res {side tsw tsh : Nat} (hw : 0 < tsw)
    (images : List (String × Image)) :
    ∀ (srcs : List WallSource) (hmap : List (String × CompiledWallSet))
      (k : Nat) (c : TileSetCursor), CurOK side tsw tsh k c →
      k + (srcs.map WallSource.num_tiles).sum ≤ side * side →
      compile_wall_sets images srcs hmap c = .error (.Msg "missing tile_source")
      ∨ ∃ hm' c', compile_wall_sets images srcs hmap c = .ok (hm', c')
          ∧ CurOK side tsw tsh (k + (srcs.map WallSource.num_tiles).sum) c' := by
  intro srcs
  induction srcs with
  | nil =>
    intro hmap k c inv _
    right
    exact ⟨hmap, c, rfl, inv⟩
  | cons wsrc rest ih =>
    intro hmap k c inv hb
    have hsum : k + ((wsrc :: rest).map WallSource.num_tiles).sum
        = k + wsrc.wall_sets.length * TILES_IN_WALL_SET
          + (rest.map WallSource.num_tiles).sum := by
      simp only [List.map_cons, List.sum_cons, WallSource.num_tiles]
      omega
    cases hlook : hmLookup images wsrc.tile_source with
    | none =>
      left
      simp only [compile_wall_sets, hlook]
    | some img =>
      obtain ⟨hm1, c1, heq, inv1⟩ :=
        compileWallSetList_ok hw img wsrc.wall_sets hmap k c inv
          (by rw [hsum] at hb; omega)
      rcases ih hm1 (k + wsrc.wall_sets.length * TILES_IN_WALL_SET) c1 inv1
          (by rw [hsum] at hb; omega) with herr | ⟨hm', c', hok, inv'⟩
      · left
        simp only [compile_wall_sets, hlook, heq]
        exact herr
      · right
        refine ⟨hm', c', ?_, ?_⟩
        · simp only [compile_wall_sets, hlook, heq]
          exact hok
        · rw [hsum]
          exact inv'

/-- A compile either fails on a missing tile source or succeeds: no other
outcome (in particular neither packing overflow nor assertion failure)
is reachable when the tile width is positive. -/
theorem compileModule_res (m : TileSetModule) (images : List (String × Image))
    (hw : 0 < m.tile_size.1) :
    compileModule m images = .error (.Msg "missing tile_source")
    ∨ ∃ r, compileModule m images = .ok r := by
  have hassert : m.num_tiles
      < (isqrt m.num_tiles + 1) * (isqrt m.num_tiles + 1) :=
    lt_succ_isqrt_sq m.num_tiles
  have hs : 0 < isqrt m.num_tiles + 1 := by omega
  have inv0 : CurOK (isqrt m.num_tiles + 1) m.tile_size.1 m.tile_size.2 0
      (TileSetCursor.new (tileSetImageSize m) m.tile_size) := by
    constructor
    · rfl
    · rfl
    · rfl
    · simp [TileSetCursor.new]
  have hsplit : (m.floor_sources.map FloorSource.num_tiles).sum
      + (m.wall_sources.map WallSource.num_tiles).sum = m.num_tiles := rfl
  rcases compile_floor_sets_res hw images m.floor_sources [] 0
      (TileSetCursor.new (tileSetImageSize m) m.tile_size) inv0
      (by omega) with herr | ⟨floors, c1, hfl, inv1⟩
  · left
    simp only [compileModule]
    rw [if_pos hassert, herr]
  · rcases compile_wall_sets_res hw images m.wall_sources [] _ c1 inv1
        (by omega) with herr | ⟨walls, c2, hwl, _⟩
    · left
      simp only [compileModule]
      rw [if_pos hassert, hfl]
      dsimp only
      rw [herr]
    · right
      refine ⟨({ identifier := m.identifier, tile_size := m.tile_size, image_path := m.out_image_path, floor_sets := floors, wall_sets := walls }, c2.img), ?_⟩
      simp only [compileModule]
      rw [if_pos hassert, hfl]
      dsimp only
      rw [hwl]

end Chickpea

namespace Chickpea

/-- Sums of per-element products. -/
theorem sum_map_mul_right {β : Type} (l : List β) (f : β → Nat) (c : Nat) :
    (l.map (fun b => f b * c)).sum = (l.map f).sum * c := by
  induction l with
  | nil => simp
  | cons a t ih => simp [ih, Nat.add_mul]

/-- C5: the planner computes `total_tiles` as 16 per floor set plus 13 per
wall set, sets the atlas side to `floor(sqrt(total_tiles)) + 1` tiles with
pixel dimensions `side * tile_size` per axis, and the atlas of a
successful compile has exactly those dimensions (it is allocated once,
before any placement, and never resized). -/
theorem c5_capacity_planning (m : TileSetModule) :
    m.num_tiles
        = 16 * (m.floor_sources.map (fun f => f.floor_sets.length)).sum
          + 13 * (m.wall_sources.map (fun w => w.wall_sets.length)).sum
    ∧ tileSetImageSize m
        = ((isqrt m.num_tiles + 1) * m.tile_size.1,
           (isqrt m.num_tiles + 1) * m.tile_size.2)
    ∧ ∀ (images : List (String × Image)) (cts : CompiledTileSet) (img : Image),
        compileModule m images = .ok (cts, img) →
        img.width = (tileSetImageSize m).1 ∧ img.height = (tileSetImageSize m).2 := by
  refine ⟨?_, rfl, fun images cts img h => compileModule_dims m images cts img h⟩
  unfold TileSetModule.num_tiles
  have hf : FloorSource.num_tiles
      = fun f : FloorSource => f.floor_sets.length * TILES_IN_FLOOR_SET := rfl
  have hw : WallSource.num_tiles
      = fun w : WallSource => w.wall_sets.length * TILES_IN_WALL_SET := rfl
  rw [hf, hw, sum_map_mul_right, sum_map_mul_right]
  simp [TILES_IN_FLOOR_SET, TILES_IN_WALL_SET, Nat.mul_comm]

/-- C5, witness at a concrete compile. -/
theorem c5_witness :
    emptyAtlas.width = (tileSetImageSize emptyM).1
    ∧ emptyAtlas.height = (tileSetImageSize emptyM).2 :=
  (c5_capacity_planning emptyM).2.2 [] emptyCts emptyAtlas rfl

/-- C6: the planned capacity suffices — the planner's assertion
`root * root > total_tiles` holds for `root = floor(sqrt(total_tiles)) + 1`,
and no compile can return the packing-overflow error of `add_tile` (nor
trip the assertion): every placement's copy target stays inside the
allocated atlas. -/
theorem c6_capacity_sufficient (m : TileSetModule)
    (images : List (String × Image)) (hw : 0 < m.tile_size.1) :
    (isqrt m.num_tiles + 1) * (isqrt m.num_tiles + 1) > m.num_tiles
    ∧ compileModule m images ≠ .error (.Msg "couldnt fit tile into image")
    ∧ compileModule m images ≠ .error (.Msg "assertion failed") := by
  refine ⟨lt_succ_isqrt_sq m.num_tiles, ?_, ?_⟩ <;>
  · rcases compileModule_res m images hw with h | ⟨r, h⟩ <;> rw [h] <;> simp

/-- C6, witness at a concrete compile. -/
theorem c6_witness :
    (isqrt oneFloorM.num_tiles + 1) * (isqrt oneFloorM.num_tiles + 1)
        > oneFloorM.num_tiles
    ∧ compileModule oneFloorM [("s", sheetImg)]
        ≠ .error (.Msg "couldnt fit tile into image")
    ∧ compileModule oneFloorM [("s", sheetImg)]
        ≠ .error (.Msg "assertion failed") :=
  c6_capacity_sufficient oneFloorM [("s", sheetImg)] (by decide)

/-- The `k`-th copy target of a compile, in grid form. -/
theorem locAfter_grid (side tsw tsh : Nat) (hw : 0 < tsw) (hs : 0 < side) :
    ∀ k, locAfter (side * tsw) (tsw, tsh) k = (k % side * tsw, k / side * tsh) := by
  intro k
  induction k with
  | zero => simp [locAfter]
  | succ k ih =>
    have h1 : locAfter (side * tsw) (tsw, tsh) (k + 1)
        = cursorAdvance (side * tsw) (tsw, tsh)
            (locAfter (side * tsw) (tsw, tsh) k) := by
      unfold locAfter
      rw [Function.iterate_succ_apply']
    rw [h1, ih]
    exact cursorAdvance_grid side tsw tsh k hw hs

/-- Two distinct multiples-of-`c` intervals of length `c` cannot share a
point. -/
theorem interval_cases_absurd {u v c a : Nat} (huv : u ≠ v)
    (h1 : u * c ≤ a) (h2 : a < u * c + c) (h3 : v * c ≤ a)
    (h4 : a < v * c + c) : False := by
  rcases Nat.lt_or_ge u v with h | h
  · have h5 : (u + 1) * c ≤ v * c := Nat.mul_le_mul_right c (by omega)
    rw [Nat.succ_mul] at h5
    omega
  · have h6 : v < u := by omega
    have h5 : (v + 1) * c ≤ u * c := Nat.mul_le_mul_right c (by omega)
    rw [Nat.succ_mul] at h5
    omega

/-- Distinct grid cells have disjoint pixel rectangles. -/
theorem grid_cells_disjoint {tsw tsh r q r' q' : Nat}
    (hne : r ≠ r' ∨ q ≠ q') :
    rectDisjoint (r * tsw, q * tsh) (tsw, tsh) (r' * tsw, q' * tsh) (tsw, tsh) := by
  intro a b hab hab'
  obtain ⟨ha1, ha2, hb1, hb2⟩ := hab
  obtain ⟨ha1', ha2', hb1', hb2'⟩ := hab'
  dsimp only at ha1 ha2 hb1 hb2 ha1' ha2' hb1' hb2'
  rcases hne with hne | hne
  · exact interval_cases_absurd hne ha1 ha2 ha1' ha2'
  · exact interval_cases_absurd hne hb1 hb2 hb1' hb2'

/-- C7: the copy targets of any two distinct placements of one compile
(`locAfter` is the source's cursor advance iterated from the initial
position, i.e. the `k`-th placement's copy target) occupy disjoint
`tile_size` pixel rectangles, and the cursor's raster position strictly
increases (row-major lexicographic) from one placement to the next. -/
theorem c7_placements_disjoint (m : TileSetModule) (k k' : Nat)
    (hw : 0 < m.tile_size.1) (hh : 0 < m.tile_size.2)
    (hk : k < m.num_tiles) (hk' : k' < m.num_tiles) (hne : k ≠ k') :
    rectDisjoint (locAfter (tileSetImageSize m).1 m.tile_size k) m.tile_size
      (locAfter (tileSetImageSize m).1 m.tile_size k') m.tile_size
    ∧ (k < k' →
        (locAfter (tileSetImageSize m).1 m.tile_size k).2
            < (locAfter (tileSetImageSize m).1 m.tile_size k').2
        ∨ ((locAfter (tileSetImageSize m).1 m.tile_size k).2
              = (locAfter (tileSetImageSize m).1 m.tile_size k').2
            ∧ (locAfter (tileSetImageSize m).1 m.tile_size k).1
              < (locAfter (tileSetImageSize m).1 m.tile_size k').1)) := by
  have hs : 0 < isqrt m.num_tiles + 1 := by omega
  have hgrid : ∀ j, locAfter (tileSetImageSize m).1 m.tile_size j
      = (j % (isqrt m.num_tiles + 1) * m.tile_size.1,
         j / (isqrt m.num_tiles + 1) * m.tile_size.2) := by
    intro j
    exact locAfter_grid (isqrt m.num_tiles + 1) m.tile_size.1 m.tile_size.2 hw hs j
  have hcells : k % (isqrt m.num_tiles + 1) ≠ k' % (isqrt m.num_tiles + 1)
      ∨ k / (isqrt m.num_tiles + 1) ≠ k' / (isqrt m.num_tiles + 1) := by
    by_contra hcon
    push_neg at hcon
    obtain ⟨h1, h2⟩ := hcon
    have d1 := Nat.div_add_mod k (isqrt m.num_tiles + 1)
    have d2 := Nat.div_add_mod k' (isqrt m.num_tiles + 1)
    rw [h1, h2] at d1
    exact hne (by omega)
  constructor
  · rw [hgrid k, hgrid k']
    exact grid_cells_disjoint hcells
  · intro hlt
    rw [hgrid k, hgrid k']
    dsimp only
    rcases Nat.lt_or_ge (k / (isqrt m.num_tiles + 1))
        (k' / (isqrt m.num_tiles + 1)) with h | h
    · left
      exact (Nat.mul_lt_mul_right hh).mpr h
    · have hdle : k / (isqrt m.num_tiles + 1) ≤ k' / (isqrt m.num_tiles + 1) :=
        Nat.div_le_div_right (Nat.le_of_lt hlt)
      have heq : k / (isqrt m.num_tiles + 1) = k' / (isqrt m.num_tiles + 1) := by
        omega
      right
      constructor
      · rw [heq]
      · have d1 := Nat.div_add_mod k (isqrt m.num_tiles + 1)
        have d2 := Nat.div_add_mod k' (isqrt m.num_tiles + 1)
        rw [heq] at d1
        have hmod : k % (isqrt m.num_tiles + 1) < k' % (isqrt m.num_tiles + 1) := by
          omega
        exact (Nat.mul_lt_mul_right hw).mpr hmod

/-- C7, witness: the first two placements of the `oneFloorM` compile. -/
theorem c7_witness :
    rectDisjoint (locAfter (tileSetImageSize oneFloorM).1 oneFloorM.tile_size 0)
      oneFloorM.tile_size
      (locAfter (tileSetImageSize oneFloorM).1 oneFloorM.tile_size 1)
      oneFloorM.tile_size
    ∧ ((0 : Nat) < 1 →
        (locAfter (tileSetImageSize oneFloorM).1 oneFloorM.tile_size 0).2
            < (locAfter (tileSetImageSize oneFloorM).1 oneFloorM.tile_size 1).2
        ∨ ((locAfter (tileSetImageSize oneFloorM).1 oneFloorM.tile_size 0).2
              = (locAfter (tileSetImageSize oneFloorM).1 oneFloorM.tile_size 1).2
            ∧ (locAfter (tileSetImageSize oneFloorM).1 oneFloorM.tile_size 0).1
              < (locAfter (tileSetImageSize oneFloorM).1 oneFloorM.tile_size 1).1)) :=
  c7_placements_disjoint oneFloorM 0 1 (by decide) (by decide) (by decide)
    (by decide) (by decide)

end Chickpea

namespace Chickpea

/-- A group whose tile size matches the set's fails validation only with
`PartCountMismatch`, and does fail when some declared part count differs
from the input offset-list length. -/
theorem validateGroup_mismatch (setTs : Nat × Nat) (g : SpecGroup)
    (hts : g.src.tile_size = setTs) (part : String) (cnt : Nat)
    (hpart : (part, cnt) ∈ g.outFmt.counts)
    (hmis : (lookupOffsets g.fmt.parts part).length ≠ cnt) :
    validateGroup setTs g = .error .PartCountMismatch := by
  unfold validateGroup
  rw [if_neg (fun hne => hne hts)]
  have hall : g.outFmt.counts.all
      (fun pc => (lookupOffsets g.fmt.parts pc.1).length == pc.2) = false := by
    apply List.all_eq_false.mpr
    refine ⟨(part, cnt), hpart, ?_⟩
    simp [hmis]
  rw [if_neg (by simp [hall])]

/-- Under matching tile sizes, a part-count mismatch anywhere makes the
whole validation pass fail with `PartCountMismatch`. -/
theorem validateGroups_mismatch (setTs : Nat × Nat) :
    ∀ l : List SpecGroup, (∀ g' ∈ l, g'.src.tile_size = setTs) →
      (∃ g ∈ l, validateGroup setTs g = .error .PartCountMismatch) →
      validateGroups setTs l = .error .PartCountMismatch := by
  intro l
  induction l with
  | nil =>
    intro _ hex
    obtain ⟨g, hg, _⟩ := hex
    exact absurd hg (by simp)
  | cons g0 rest ih =>
    intro hts hex
    unfold validateGroups
    cases hv : validateGroup setTs g0 with
    | error e =>
      have he : e = .PartCountMismatch := by
        unfold validateGroup at hv
        rw [if_neg (fun hne => hne (hts g0 (by simp)))] at hv
        split at hv
        · exact absurd hv (by simp)
        · simp only [Except.error.injEq] at hv
          exact hv.symm
      rw [he]
    | ok u =>
      obtain ⟨g, hg, hge⟩ := hex
      rcases List.mem_cons.mp hg with h | h
      · subst h
        rw [hv] at hge
        exact absurd hge (by simp)
      · exact ih (fun g' hg' => hts g' (List.mem_cons_of_mem _ hg')) ⟨g, h, hge⟩

/-- C8 (spec-modelled): if some group's input format offset-list length
differs from the output format's declared count for a part (and no group
fails the earlier tile-size check), the compile is rejected with
`PartCountMismatch` during the validation pass — before any pixel work —
and produces no output artifacts. -/
theorem c8_part_count_rejected (s : SpecTileSetSource) (g : SpecGroup)
    (part : String) (cnt : Nat) (hg : g ∈ s.groups)
    (hts : ∀ g' ∈ s.groups, g'.src.tile_size = s.tile_size)
    (hpart : (part, cnt) ∈ g.outFmt.counts)
    (hmis : (lookupOffsets g.fmt.parts part).length ≠ cnt) :
    specCompileArtifacts s = .error .PartCountMismatch := by
  have hv := validateGroups_mismatch s.tile_size s.groups hts
    ⟨g, hg, validateGroup_mismatch s.tile_size g (hts g hg) part cnt hpart hmis⟩
  simp only [specCompileArtifacts, hv]

/-- C8, witness: a concrete one-group spec declaring part `"a"` with
count 2 but supplying 1 offset is rejected with `PartCountMismatch`. -/
theorem c8_witness : specCompileArtifacts c8spec = .error .PartCountMismatch :=
  c8_part_count_rejected c8spec c8group "a" 2 (by simp [c8spec])
    (by intro g' hg'; simp [c8spec] at hg'; subst hg'; rfl)
    (by simp [c8group]) (by decide)

end Chickpea
